import Mathlib

/-!
Verification development for the formio-mcp repository.

The definitions below are a shallow embedding of the real-time
notification core of the repository:

* `src/routes/form-preview.ts` (class `FormUpdateNotifier`): the Form
  Update Router, with its forward index `formWatchers`
  (`Map<formId, Set<connectionId>>`), reverse index `connectionForms`
  (`Map<connectionId, formId>`), activity index `connectionActivity`,
  and pending-debounce-timer map `pendingNotifications`.
* `sse-manager.ts` (class `SSEManager`): the Streaming Connection
  Registry, modelled by a map from connection id to the behaviour the
  underlying stream write exhibits.
* `http-transport.ts` (class `HttpTransport`): the RPC Dispatch Bridge
  method `handleRequestSync`.
* `tool-handlers.ts` (`isMCPForm`, `validateMCPOwnership`,
  `executeToolCall` for create_form / update_form / delete_form).

JavaScript `Map` objects are embedded as association lists in insertion
order (`Map.set` replaces the value at the existing position of the key,
otherwise appends; `Map.delete` removes the entry).  JavaScript `Set`
objects are embedded as duplicate-free lists in insertion order
(`Set.add` appends when absent, `Set.delete` filters).
-/

/-- Association-list lookup, the embedding of `Map.get`. -/
def alookup {α β : Type} [DecidableEq α] : List (α × β) → α → Option β
  | [], _ => none
  | (k, v) :: rest, a => if k = a then some v else alookup rest a

/-- Embedding of `Map.set`: replace the value at the first occurrence of the
key, keeping its position; otherwise append the new entry at the end. -/
def mapSet {α β : Type} [DecidableEq α] : List (α × β) → α → β → List (α × β)
  | [], k, v => [(k, v)]
  | (k₀, v₀) :: rest, k, v =>
      if k₀ = k then (k, v) :: rest else (k₀, v₀) :: mapSet rest k v

/-- Embedding of `Map.delete`: remove the entry with the given key. -/
def mapDelete {α β : Type} [DecidableEq α] : List (α × β) → α → List (α × β)
  | [], _ => []
  | (k₀, v₀) :: rest, k =>
      if k₀ = k then mapDelete rest k else (k₀, v₀) :: mapDelete rest k

/-- Embedding of `Set.add`: append the element when it is not yet present. -/
def setAdd {α : Type} [DecidableEq α] (s : List α) (a : α) : List α :=
  if a ∈ s then s else s ++ [a]

/-- Embedding of `Set.delete`: remove the element. -/
def setDelete {α : Type} [DecidableEq α] (s : List α) (a : α) : List α :=
  s.filter (fun x => x ≠ a)

section AssocLemmas

variable {α β : Type} [DecidableEq α]

theorem alookup_mapSet_self (m : List (α × β)) (k : α) (v : β) :
    alookup (mapSet m k v) k = some v := by
  induction m with
  | nil => simp [mapSet, alookup]
  | cons p rest ih =>
      obtain ⟨k₀, v₀⟩ := p
      by_cases h : k₀ = k
      · simp [mapSet, h, alookup]
      · simp [mapSet, h, alookup, ih]

theorem alookup_mapSet_ne (m : List (α × β)) (k a : α) (v : β) (h : a ≠ k) :
    alookup (mapSet m k v) a = alookup m a := by
  have hka : ¬ (k = a) := fun hh => h hh.symm
  induction m with
  | nil => simp [mapSet, alookup, hka]
  | cons p rest ih =>
      obtain ⟨k₀, v₀⟩ := p
      by_cases hk : k₀ = k
      · subst hk
        simp [mapSet, alookup, hka]
      · simp [mapSet, hk, alookup, ih]

theorem alookup_mapDelete_self (m : List (α × β)) (k : α) :
    alookup (mapDelete m k) k = none := by
  induction m with
  | nil => rfl
  | cons p rest ih =>
      obtain ⟨k₀, v₀⟩ := p
      by_cases h : k₀ = k
      · simpa [mapDelete, h] using ih
      · simpa [mapDelete, alookup, h] using ih

theorem alookup_mapDelete_ne (m : List (α × β)) (k a : α) (h : a ≠ k) :
    alookup (mapDelete m k) a = alookup m a := by
  induction m with
  | nil => rfl
  | cons p rest ih =>
      obtain ⟨k₀, v₀⟩ := p
      by_cases hk : k₀ = k
      · subst hk
        have hka : ¬ (k₀ = a) := fun hh => h hh.symm
        simpa [mapDelete, alookup, hka] using ih
      · simp only [mapDelete, if_neg hk, alookup]
        rw [ih]

theorem mapSet_mapSet (m : List (α × β)) (k : α) (v₁ v₂ : β) :
    mapSet (mapSet m k v₁) k v₂ = mapSet m k v₂ := by
  induction m with
  | nil => simp [mapSet]
  | cons p rest ih =>
      obtain ⟨k₀, v₀⟩ := p
      by_cases h : k₀ = k
      · simp [mapSet, h]
      · simp [mapSet, h, ih]

theorem mem_keys_of_alookup {m : List (α × β)} {a : α} {v : β}
    (h : alookup m a = some v) : a ∈ m.map Prod.fst := by
  induction m with
  | nil => simp [alookup] at h
  | cons p rest ih =>
      obtain ⟨k₀, v₀⟩ := p
      by_cases hk : k₀ = a
      · simp [hk]
      · simp only [alookup, if_neg hk] at h
        simp only [List.map_cons, List.mem_cons]
        exact Or.inr (ih h)

theorem alookup_isSome_iff_mem_keys (m : List (α × β)) (a : α) :
    (alookup m a).isSome ↔ a ∈ m.map Prod.fst := by
  induction m with
  | nil => simp [alookup]
  | cons p rest ih =>
      obtain ⟨k₀, v₀⟩ := p
      by_cases hk : k₀ = a
      · subst hk
        simp [alookup]
      · simp only [alookup, if_neg hk, List.map_cons, List.mem_cons]
        rw [ih]
        constructor
        · exact Or.inr
        · rintro (hh | hh)
          · exact absurd hh.symm hk
          · exact hh

theorem mem_of_alookup_eq_some {m : List (α × β)} {a : α} {v : β}
    (h : alookup m a = some v) : (a, v) ∈ m := by
  induction m with
  | nil => simp [alookup] at h
  | cons p rest ih =>
      obtain ⟨k₀, v₀⟩ := p
      by_cases hk : k₀ = a
      · subst hk
        simp [alookup] at h
        subst h
        simp
      · simp only [alookup, if_neg hk] at h
        simp [ih h]

theorem alookup_eq_some_of_mem_of_nodup {m : List (α × β)} {a : α} {v : β}
    (hnd : (m.map Prod.fst).Nodup) (h : (a, v) ∈ m) : alookup m a = some v := by
  induction m with
  | nil => simp at h
  | cons p rest ih =>
      obtain ⟨k₀, v₀⟩ := p
      simp only [List.map_cons, List.nodup_cons] at hnd
      rcases List.mem_cons.mp h with h₁ | h₂
      · rw [Prod.mk.injEq] at h₁
        obtain ⟨rfl, rfl⟩ := h₁
        simp [alookup]
      · have hk : k₀ ≠ a := by
          intro hh
          subst hh
          exact hnd.1 (by simpa using List.mem_map_of_mem Prod.fst h₂)
        simp only [alookup, if_neg hk]
        exact ih hnd.2 h₂

theorem mem_keys_mapSet (m : List (α × β)) (k a : α) (v : β) :
    a ∈ (mapSet m k v).map Prod.fst ↔ a ∈ m.map Prod.fst ∨ a = k := by
  induction m with
  | nil =>
      simp [mapSet] <;> tauto
  | cons p rest ih =>
      obtain ⟨k₀, v₀⟩ := p
      by_cases h : k₀ = k
      · subst h
        simp [mapSet] <;> tauto
      · simp [mapSet, h, ih] <;> tauto

theorem nodup_keys_mapSet (m : List (α × β)) (k : α) (v : β)
    (hnd : (m.map Prod.fst).Nodup) : ((mapSet m k v).map Prod.fst).Nodup := by
  induction m with
  | nil => simp [mapSet]
  | cons p rest ih =>
      obtain ⟨k₀, v₀⟩ := p
      simp only [List.map_cons, List.nodup_cons] at hnd
      by_cases h : k₀ = k
      · subst h
        simpa [mapSet] using hnd
      · simp only [mapSet, if_neg h, List.map_cons, List.nodup_cons]
        refine ⟨?_, ih hnd.2⟩
        intro hmem
        rcases (mem_keys_mapSet rest k k₀ v).mp hmem with hin | heq
        · exact hnd.1 hin
        · exact h heq

theorem mem_keys_mapDelete (m : List (α × β)) (k a : α) :
    a ∈ (mapDelete m k).map Prod.fst → a ∈ m.map Prod.fst := by
  induction m with
  | nil => simp [mapDelete]
  | cons p rest ih =>
      obtain ⟨k₀, v₀⟩ := p
      by_cases h : k₀ = k
      · intro hmem
        simp only [mapDelete, if_pos h] at hmem
        simp only [List.map_cons, List.mem_cons]
        exact Or.inr (ih hmem)
      · intro hmem
        simp only [mapDelete, if_neg h, List.map_cons, List.mem_cons] at hmem
        rcases hmem with hh | hh
        · simp [hh]
        · simp only [List.map_cons, List.mem_cons]
          exact Or.inr (ih hh)

theorem nodup_keys_mapDelete (m : List (α × β)) (k : α)
    (hnd : (m.map Prod.fst).Nodup) : ((mapDelete m k).map Prod.fst).Nodup := by
  induction m with
  | nil => simp [mapDelete]
  | cons p rest ih =>
      obtain ⟨k₀, v₀⟩ := p
      simp only [List.map_cons, List.nodup_cons] at hnd
      by_cases h : k₀ = k
      · simp only [mapDelete, if_pos h]
        exact ih hnd.2
      · simp only [mapDelete, if_neg h, List.map_cons, List.nodup_cons]
        exact ⟨fun hmem => hnd.1 (mem_keys_mapDelete rest k k₀ hmem), ih hnd.2⟩

theorem mem_setDelete (s : List α) (a x : α) :
    x ∈ setDelete s a ↔ x ∈ s ∧ x ≠ a := by
  simp [setDelete]

theorem mem_setAdd (s : List α) (a x : α) :
    x ∈ setAdd s a ↔ x ∈ s ∨ x = a := by
  by_cases h : a ∈ s
  · simp only [setAdd, if_pos h]
    constructor
    · exact fun hx => Or.inl hx
    · rintro (hx | rfl)
      · exact hx
      · exact h
  · simp [setAdd, if_neg h]

theorem setAdd_ne_nil (s : List α) (a : α) : setAdd s a ≠ [] := by
  intro h
  have : a ∈ setAdd s a := (mem_setAdd s a a).mpr (Or.inr rfl)
  rw [h] at this
  simp at this

theorem setAdd_setAdd (s : List α) (a : α) : setAdd (setAdd s a) a = setAdd s a := by
  have h : a ∈ setAdd s a := (mem_setAdd s a a).mpr (Or.inr rfl)
  show (if a ∈ setAdd s a then setAdd s a else setAdd s a ++ [a]) = setAdd s a
  rw [if_pos h]

end AssocLemmas

/-! ## Form Update Router state (`FormUpdateNotifier`, form-preview.ts) -/

abbrev ConnId := String

abbrev FormId := String

/-- The mutable state of `FormUpdateNotifier` (form-preview.ts lines 185 to 204):
`formWatchers : Map<formId, Set<connectionId>>`,
`connectionForms : Map<connectionId, formId>`,
`connectionActivity : Map<connectionId, Date>` (timestamps as naturals),
`pendingNotifications : Map<formId, Timeout>` (timer handles as naturals). -/
structure NotifierState where
  formWatchers : List (FormId × List ConnId)
  connectionForms : List (ConnId × FormId)
  connectionActivity : List (ConnId × Nat)
  pendingNotifications : List (FormId × Nat)
deriving Repr, DecidableEq

/-- The empty router state (all maps start empty in the constructor). -/
def initNotifier : NotifierState := ⟨[], [], [], []⟩

/-- Embedding of `FormUpdateNotifier.getConnectionsByForm` (lines 474 to 477):
`Array.from` of the watcher set, or the empty list when the form has no entry. -/
def getConnectionsByForm (s : NotifierState) (formId : FormId) : List ConnId :=
  (alookup s.formWatchers formId).getD []

/-- Embedding of `FormUpdateNotifier.getFormByConnection` (lines 482 to 484). -/
def getFormByConnection (s : NotifierState) (connectionId : ConnId) : Option FormId :=
  alookup s.connectionForms connectionId

/-- The body of `FormUpdateNotifier.unregisterPreviewConnection` past its
guard (form-preview.ts lines 311 to 358): delete the connection from the
watcher set of its form (deleting the set when it becomes empty), and
delete the reverse and activity entries. -/
def removeRegistration (s : NotifierState) (connectionId : ConnId) (formId : FormId) :
    NotifierState :=
  { s with
    formWatchers :=
      match alookup s.formWatchers formId with
      | none => s.formWatchers
      | some watchers =>
          if (setDelete watchers connectionId).isEmpty then
            mapDelete s.formWatchers formId
          else
            mapSet s.formWatchers formId (setDelete watchers connectionId),
    connectionForms := mapDelete s.connectionForms connectionId,
    connectionActivity := mapDelete s.connectionActivity connectionId }

/-- Embedding of `FormUpdateNotifier.unregisterPreviewConnection` (lines 297
to 359): look up the form of the connection; the guard is the JavaScript
truthiness test `if (!formId) return`, so the call is a no-op both when the
connection is not registered and when its stored form id is the falsy empty
string; otherwise the registration is removed. -/
def unregisterPreviewConnection (s : NotifierState) (connectionId : ConnId) : NotifierState :=
  match alookup s.connectionForms connectionId with
  | none => s
  | some formId =>
      if formId = "" then s
      else removeRegistration s connectionId formId

/-- The common insertion tail of `registerPreviewConnection` (lines 257 to 268):
create the watcher set when missing, add the connection to it, set the reverse
entry, and stamp the activity timestamp. -/
def insertRegistration (s : NotifierState) (connectionId : ConnId) (formId : FormId)
    (now : Nat) : NotifierState :=
  let watchers := (alookup s.formWatchers formId).getD []
  { s with
    formWatchers := mapSet s.formWatchers formId (setAdd watchers connectionId),
    connectionForms := mapSet s.connectionForms connectionId formId,
    connectionActivity := mapSet s.connectionActivity connectionId now }

/-- Embedding of `FormUpdateNotifier.registerPreviewConnection` (lines 219 to
291).  The already-registered branch is guarded by the JavaScript
truthiness test `if (existingFormId)`: it runs only when the stored form id
is truthy (present and nonempty).  Inside it, a different form id first
unregisters the old watch, and the same form id only refreshes the
activity timestamp.  When the stored form id is the falsy empty string the
whole branch is skipped and the connection is inserted a second time
without unregistration. -/
def registerPreviewConnection (s : NotifierState) (connectionId : ConnId) (formId : FormId)
    (now : Nat) : NotifierState :=
  match alookup s.connectionForms connectionId with
  | some existingFormId =>
      if existingFormId ≠ "" then
        if existingFormId ≠ formId then
          insertRegistration (unregisterPreviewConnection s connectionId) connectionId
            formId now
        else
          { s with connectionActivity := mapSet s.connectionActivity connectionId now }
      else
        insertRegistration s connectionId formId now
  | none => insertRegistration s connectionId formId now

/-- One call of the register / unregister interface of the Router. -/
inductive NotifierOp where
  | reg (connectionId : ConnId) (formId : FormId) (now : Nat)
  | unreg (connectionId : ConnId)
deriving Repr, DecidableEq

/-- Apply one register / unregister call to a router state. -/
def applyNotifierOp (s : NotifierState) : NotifierOp → NotifierState
  | .reg c f now => registerPreviewConnection s c f now
  | .unreg c => unregisterPreviewConnection s c

/-- Run a sequence of register / unregister calls from the empty state. -/
def runNotifierOps (ops : List NotifierOp) : NotifierState :=
  ops.foldl applyNotifierOp initNotifier

/-- A register call uses a truthy (nonempty) form id; unregister calls are
unconstrained. -/
def NotifierOp.formIdTruthy : NotifierOp → Bool
  | .reg _ f _ => f != ""
  | .unreg _ => true

/-- Whether the watcher set the forward index holds for form `f` contains the
connection `c` (false when the form has no watcher set at all). -/
def watcherContains (fw : List (FormId × List ConnId)) (f : FormId) (c : ConnId) : Bool :=
  match alookup fw f with
  | some ws => c ∈ ws
  | none => false

/-- Decidable well-formedness of the two watch indices: keys of both maps are
unique, every watcher set belongs to a truthy (nonempty) form id, is
nonempty, and points back to its form in the reverse index, and every
reverse entry is a member of the watcher set of its form. -/
def NotifierWF (s : NotifierState) : Prop :=
  (s.formWatchers.map Prod.fst).Nodup ∧
  (s.connectionForms.map Prod.fst).Nodup ∧
  (∀ e ∈ s.formWatchers, e.1 ≠ "" ∧ e.2 ≠ [] ∧
      ∀ c ∈ e.2, alookup s.connectionForms c = some e.1) ∧
  (∀ p ∈ s.connectionForms, watcherContains s.formWatchers p.2 p.1 = true)

instance (s : NotifierState) : Decidable (NotifierWF s) := by
  unfold NotifierWF
  infer_instance

/-- Lookup-level consistency of forward and reverse index: a connection is in
the watcher set the forward index holds for a form exactly when the reverse
index maps the connection to that form. -/
def ConsistentIndices (s : NotifierState) : Prop :=
  ∀ c f, (∃ ws, alookup s.formWatchers f = some ws ∧ c ∈ ws) ↔
    alookup s.connectionForms c = some f

/-- No form is mapped to an empty watcher set. -/
def NoEmptyWatcherSet (s : NotifierState) : Prop :=
  ∀ f ws, alookup s.formWatchers f = some ws → ws ≠ []

/-- Every form id that owns a watcher set is truthy (nonempty). -/
def TruthyFormKeys (s : NotifierState) : Prop :=
  ∀ f ws, alookup s.formWatchers f = some ws → f ≠ ""

theorem watcherContains_iff (fw : List (FormId × List ConnId)) (f : FormId) (c : ConnId) :
    watcherContains fw f c = true ↔ ∃ ws, alookup fw f = some ws ∧ c ∈ ws := by
  unfold watcherContains
  cases h : alookup fw f with
  | none => simp
  | some ws => simp [h]

theorem mem_getConnectionsByForm_iff (s : NotifierState) (c : ConnId) (f : FormId) :
    c ∈ getConnectionsByForm s f ↔ ∃ ws, alookup s.formWatchers f = some ws ∧ c ∈ ws := by
  unfold getConnectionsByForm
  cases h : alookup s.formWatchers f with
  | none => simp
  | some ws => simp [h]

theorem notifierWF_iff (s : NotifierState) :
    NotifierWF s ↔
      (s.formWatchers.map Prod.fst).Nodup ∧ (s.connectionForms.map Prod.fst).Nodup ∧
      ConsistentIndices s ∧ NoEmptyWatcherSet s ∧ TruthyFormKeys s := by
  constructor
  · rintro ⟨h₁, h₂, h₃, h₄⟩
    refine ⟨h₁, h₂, ?_, ?_, ?_⟩
    · intro c f
      constructor
      · rintro ⟨ws, hws, hc⟩
        exact ((h₃ _ (mem_of_alookup_eq_some hws)).2.2 c hc)
      · intro hcf
        exact (watcherContains_iff _ _ _).mp (h₄ _ (mem_of_alookup_eq_some hcf))
    · intro f ws hws
      exact (h₃ _ (mem_of_alookup_eq_some hws)).2.1
    · intro f ws hws
      exact (h₃ _ (mem_of_alookup_eq_some hws)).1
  · rintro ⟨h₁, h₂, hcons, hne, htr⟩
    refine ⟨h₁, h₂, ?_, ?_⟩
    · intro e he
      have hl : alookup s.formWatchers e.1 = some e.2 :=
        alookup_eq_some_of_mem_of_nodup h₁ (by simpa using he)
      exact ⟨htr _ _ hl, hne _ _ hl, fun c hc => (hcons c e.1).mp ⟨e.2, hl, hc⟩⟩
    · intro p hp
      have hl : alookup s.connectionForms p.1 = some p.2 :=
        alookup_eq_some_of_mem_of_nodup h₂ (by simpa using hp)
      exact (watcherContains_iff _ _ _).mpr ((hcons p.1 p.2).mpr hl)

/-- In a well-formed state every watched form id is truthy, so the
truthiness guards of the source take their main branch. -/
theorem reverse_truthy (s : NotifierState) (c : ConnId) (f : FormId)
    (hwf : NotifierWF s) (h : alookup s.connectionForms c = some f) : f ≠ "" := by
  obtain ⟨-, -, hcons, -, htr⟩ := (notifierWF_iff s).mp hwf
  obtain ⟨ws, hws, -⟩ := (hcons c f).mpr h
  exact htr f ws hws

theorem not_watching_of_reverse_ne (s : NotifierState) (c : ConnId) (f : FormId)
    (hcons : ConsistentIndices s)
    (h : alookup s.connectionForms c ≠ some f) : c ∉ getConnectionsByForm s f := by
  intro hc
  exact h ((hcons c f).mp ((mem_getConnectionsByForm_iff s c f).mp hc))

theorem setDelete_not_mem {l : List ConnId} {c : ConnId} (h : c ∉ l) :
    setDelete l c = l := by
  refine List.filter_eq_self.mpr ?_
  intro a ha
  rcases Decidable.eq_or_ne a c with rfl | hne
  · exact absurd ha h
  · simpa using hne

theorem mem_getD_iff_mem_getConnections (s : NotifierState) (c : ConnId) (f : FormId) :
    c ∈ (alookup s.formWatchers f).getD [] ↔ c ∈ getConnectionsByForm s f := Iff.rfl

/-- Unregistering does not touch the pending debounce timers. -/
theorem unregister_pending (s : NotifierState) (c : ConnId) :
    (unregisterPreviewConnection s c).pendingNotifications = s.pendingNotifications := by
  unfold unregisterPreviewConnection
  split
  · rfl
  · split
    · rfl
    · rfl

theorem removeRegistration_reverse_self (s : NotifierState) (c : ConnId) (f₀ : FormId) :
    getFormByConnection (removeRegistration s c f₀) c = none := by
  unfold removeRegistration getFormByConnection
  dsimp only
  exact alookup_mapDelete_self _ _

theorem removeRegistration_reverse_ne (s : NotifierState) (c c₂ : ConnId) (f₀ : FormId)
    (h : c₂ ≠ c) :
    getFormByConnection (removeRegistration s c f₀) c₂ = getFormByConnection s c₂ := by
  unfold removeRegistration getFormByConnection
  dsimp only
  exact alookup_mapDelete_ne _ _ _ h

/-- On a well-formed state the stored form id of a registered connection is
truthy, so unregistering removes the reverse entry. -/
theorem unregister_reverse_self_wf (s : NotifierState) (c : ConnId) (hwf : NotifierWF s) :
    getFormByConnection (unregisterPreviewConnection s c) c = none := by
  unfold unregisterPreviewConnection
  split
  next h => exact h
  next f₀ h =>
      rw [if_neg (reverse_truthy s c f₀ hwf h)]
      exact removeRegistration_reverse_self s c f₀

theorem unregister_reverse_ne (s : NotifierState) (c c₂ : ConnId) (h : c₂ ≠ c) :
    getFormByConnection (unregisterPreviewConnection s c) c₂ = getFormByConnection s c₂ := by
  unfold unregisterPreviewConnection
  split
  next => rfl
  next f₀ hcf =>
      split
      next => rfl
      next => exact removeRegistration_reverse_ne s c c₂ f₀ h

theorem unregister_reverse_none (n : NotifierState) (a c : ConnId)
    (h : getFormByConnection n c = none) :
    getFormByConnection (unregisterPreviewConnection n a) c = none := by
  rcases Decidable.eq_or_ne c a with rfl | hca
  · unfold unregisterPreviewConnection
    rw [show alookup n.connectionForms c = none from h]
    exact h
  · rw [unregister_reverse_ne n a c hca]
    exact h

/-- The effect of the unregistration body on any watcher list: the connection
is deleted from the watcher set of its form, all other sets are untouched. -/
theorem removeRegistration_watchers (s : NotifierState) (c : ConnId) (f f₀ : FormId)
    (hcons : ConsistentIndices s) (hcf : alookup s.connectionForms c = some f₀) :
    getConnectionsByForm (removeRegistration s c f₀) f
      = setDelete (getConnectionsByForm s f) c := by
  unfold removeRegistration getConnectionsByForm
  dsimp only
  split
  next hfw =>
      have hnm : c ∉ (alookup s.formWatchers f).getD [] := by
        rw [mem_getD_iff_mem_getConnections]
        intro hc
        have h1 := (hcons c f).mp ((mem_getConnectionsByForm_iff s c f).mp hc)
        rw [hcf] at h1
        obtain rfl : f₀ = f := Option.some.inj h1
        rcases (mem_getConnectionsByForm_iff s c f₀).mp hc with ⟨ws, hws, -⟩
        rw [hfw] at hws
        cases hws
      rw [setDelete_not_mem hnm]
  next ws hfw =>
      split
      next hemp =>
          by_cases hf : f = f₀
          · subst hf
            rw [alookup_mapDelete_self, hfw]
            have : setDelete ws c = [] := List.isEmpty_iff.mp hemp
            simp [this]
          · rw [alookup_mapDelete_ne _ _ _ hf, setDelete_not_mem
              (show c ∉ (alookup s.formWatchers f).getD [] from
                not_watching_of_reverse_ne s c f hcons (by
                  rw [hcf]
                  simpa using fun hh => hf hh.symm))]
      next hemp =>
          by_cases hf : f = f₀
          · subst hf
            rw [alookup_mapSet_self, hfw]
            rfl
          · rw [alookup_mapSet_ne _ _ _ _ hf, setDelete_not_mem
              (show c ∉ (alookup s.formWatchers f).getD [] from
                not_watching_of_reverse_ne s c f hcons (by
                  rw [hcf]
                  simpa using fun hh => hf hh.symm))]

/-- On a well-formed state, unregistering deletes the connection from the
watcher set of its form and touches no other set (the falsy guard branch is
unreachable because watched form ids are truthy). -/
theorem unregister_watchers (s : NotifierState) (c : ConnId) (f : FormId)
    (hwf : NotifierWF s) :
    getConnectionsByForm (unregisterPreviewConnection s c) f
      = setDelete (getConnectionsByForm s f) c := by
  have hcons : ConsistentIndices s := ((notifierWF_iff s).mp hwf).2.2.1
  unfold unregisterPreviewConnection
  split
  next hcf =>
      exact (setDelete_not_mem
        (show c ∉ getConnectionsByForm s f from
          not_watching_of_reverse_ne s c f hcons (by simp [hcf]))).symm
  next f₀ hcf =>
      rw [if_neg (reverse_truthy s c f₀ hwf hcf)]
      exact removeRegistration_watchers s c f f₀ hcons hcf

theorem unregister_consistent (s : NotifierState) (c : ConnId)
    (hwf : NotifierWF s) : ConsistentIndices (unregisterPreviewConnection s c) := by
  have hcons : ConsistentIndices s := ((notifierWF_iff s).mp hwf).2.2.1
  intro c₂ f
  rw [← mem_getConnectionsByForm_iff, unregister_watchers s c f hwf, mem_setDelete]
  rcases Decidable.eq_or_ne c₂ c with rfl | hne
  · constructor
    · rintro ⟨-, hcc⟩
      exact absurd rfl hcc
    · intro hcf
      rw [show alookup (unregisterPreviewConnection s c₂).connectionForms c₂
            = getFormByConnection (unregisterPreviewConnection s c₂) c₂ from rfl,
          unregister_reverse_self_wf s c₂ hwf] at hcf
      cases hcf
  · rw [show alookup (unregisterPreviewConnection s c).connectionForms c₂
        = getFormByConnection (unregisterPreviewConnection s c) c₂ from rfl,
      unregister_reverse_ne s c c₂ hne]
    constructor
    · rintro ⟨hm, -⟩
      exact (hcons c₂ f).mp ((mem_getConnectionsByForm_iff s c₂ f).mp hm)
    · intro hcf
      exact ⟨(mem_getConnectionsByForm_iff s c₂ f).mpr ((hcons c₂ f).mpr hcf), hne⟩

theorem removeRegistration_noEmpty (s : NotifierState) (c : ConnId) (f₀ : FormId)
    (hne : NoEmptyWatcherSet s) : NoEmptyWatcherSet (removeRegistration s c f₀) := by
  intro f ws hws
  unfold removeRegistration at hws
  dsimp only at hws
  rcases hsp : alookup s.formWatchers f₀ with - | ws₀
  · rw [hsp] at hws
    exact hne f ws hws
  · rw [hsp] at hws
    dsimp only at hws
    by_cases hemp : (setDelete ws₀ c).isEmpty
    · rw [if_pos hemp] at hws
      rcases Decidable.eq_or_ne f f₀ with rfl | hff
      · rw [alookup_mapDelete_self] at hws
        cases hws
      · rw [alookup_mapDelete_ne _ _ _ hff] at hws
        exact hne f ws hws
    · rw [if_neg hemp] at hws
      rcases Decidable.eq_or_ne f f₀ with rfl | hff
      · rw [alookup_mapSet_self] at hws
        obtain rfl : setDelete ws₀ c = ws := Option.some.inj hws
        intro hnil
        rw [hnil] at hemp
        exact hemp rfl
      · rw [alookup_mapSet_ne _ _ _ _ hff] at hws
        exact hne f ws hws

theorem unregister_noEmpty (s : NotifierState) (c : ConnId)
    (hne : NoEmptyWatcherSet s) : NoEmptyWatcherSet (unregisterPreviewConnection s c) := by
  unfold unregisterPreviewConnection
  split
  next => exact hne
  next f₀ hcf =>
      split
      next => exact hne
      next => exact removeRegistration_noEmpty s c f₀ hne

theorem removeRegistration_truthyKeys (s : NotifierState) (c : ConnId) (f₀ : FormId)
    (hf₀ : f₀ ≠ "") (htr : TruthyFormKeys s) :
    TruthyFormKeys (removeRegistration s c f₀) := by
  intro f ws hws
  unfold removeRegistration at hws
  dsimp only at hws
  rcases hsp : alookup s.formWatchers f₀ with - | ws₀
  · rw [hsp] at hws
    exact htr f ws hws
  · rw [hsp] at hws
    dsimp only at hws
    by_cases hemp : (setDelete ws₀ c).isEmpty
    · rw [if_pos hemp] at hws
      rcases Decidable.eq_or_ne f f₀ with rfl | hff
      · rw [alookup_mapDelete_self] at hws
        cases hws
      · rw [alookup_mapDelete_ne _ _ _ hff] at hws
        exact htr f ws hws
    · rw [if_neg hemp] at hws
      rcases Decidable.eq_or_ne f f₀ with rfl | hff
      · exact hf₀
      · rw [alookup_mapSet_ne _ _ _ _ hff] at hws
        exact htr f ws hws

theorem unregister_truthyKeys (s : NotifierState) (c : ConnId)
    (htr : TruthyFormKeys s) : TruthyFormKeys (unregisterPreviewConnection s c) := by
  unfold unregisterPreviewConnection
  split
  next => exact htr
  next f₀ hcf =>
      split
      next => exact htr
      next h => exact removeRegistration_truthyKeys s c f₀ h htr

theorem removeRegistration_nodup_fw (s : NotifierState) (c : ConnId) (f₀ : FormId)
    (h : (s.formWatchers.map Prod.fst).Nodup) :
    ((removeRegistration s c f₀).formWatchers.map Prod.fst).Nodup := by
  unfold removeRegistration
  dsimp only
  split
  next => exact h
  next ws hfw =>
      split
      next => exact nodup_keys_mapDelete _ _ h
      next => exact nodup_keys_mapSet _ _ _ h

theorem unregister_nodup_fw (s : NotifierState) (c : ConnId)
    (h : (s.formWatchers.map Prod.fst).Nodup) :
    ((unregisterPreviewConnection s c).formWatchers.map Prod.fst).Nodup := by
  unfold unregisterPreviewConnection
  split
  next => exact h
  next f₀ hcf =>
      split
      next => exact h
      next => exact removeRegistration_nodup_fw s c f₀ h

theorem unregister_nodup_cf (s : NotifierState) (c : ConnId)
    (h : (s.connectionForms.map Prod.fst).Nodup) :
    ((unregisterPreviewConnection s c).connectionForms.map Prod.fst).Nodup := by
  unfold unregisterPreviewConnection
  split
  next => exact h
  next f₀ hcf =>
      split
      next => exact h
      next =>
          unfold removeRegistration
          dsimp only
          exact nodup_keys_mapDelete _ _ h

theorem unregister_wf (s : NotifierState) (c : ConnId) (hwf : NotifierWF s) :
    NotifierWF (unregisterPreviewConnection s c) := by
  obtain ⟨h₁, h₂, hcons, hne, htr⟩ := (notifierWF_iff s).mp hwf
  rw [notifierWF_iff]
  exact ⟨unregister_nodup_fw s c h₁, unregister_nodup_cf s c h₂,
    unregister_consistent s c hwf, unregister_noEmpty s c hne,
    unregister_truthyKeys s c htr⟩

theorem insert_watchers (s : NotifierState) (c : ConnId) (f g : FormId) (now : Nat) :
    getConnectionsByForm (insertRegistration s c f now) g
      = if g = f then setAdd ((alookup s.formWatchers f).getD []) c
        else getConnectionsByForm s g := by
  unfold insertRegistration getConnectionsByForm
  dsimp only
  rcases Decidable.eq_or_ne g f with rfl | hgf
  · rw [if_pos rfl, alookup_mapSet_self]
    rfl
  · rw [if_neg hgf, alookup_mapSet_ne _ _ _ _ hgf]

theorem insert_reverse_self (s : NotifierState) (c : ConnId) (f : FormId) (now : Nat) :
    getFormByConnection (insertRegistration s c f now) c = some f := by
  unfold insertRegistration getFormByConnection
  dsimp only
  exact alookup_mapSet_self _ _ _

theorem insert_reverse_ne (s : NotifierState) (c c₂ : ConnId) (f : FormId) (now : Nat)
    (h : c₂ ≠ c) :
    getFormByConnection (insertRegistration s c f now) c₂ = getFormByConnection s c₂ := by
  unfold insertRegistration getFormByConnection
  dsimp only
  exact alookup_mapSet_ne _ _ _ _ h

theorem insert_consistent (s : NotifierState) (c : ConnId) (f : FormId) (now : Nat)
    (hcons : ConsistentIndices s) (hc : alookup s.connectionForms c = none) :
    ConsistentIndices (insertRegistration s c f now) := by
  intro c₂ g
  rw [← mem_getConnectionsByForm_iff, insert_watchers s c f g now,
    show alookup (insertRegistration s c f now).connectionForms c₂
      = getFormByConnection (insertRegistration s c f now) c₂ from rfl]
  rcases Decidable.eq_or_ne c₂ c with rfl | hne
  · rw [insert_reverse_self]
    rcases Decidable.eq_or_ne g f with rfl | hgf
    · simp [mem_setAdd]
    · rw [if_neg hgf]
      constructor
      · intro hm
        have := (hcons c₂ g).mp ((mem_getConnectionsByForm_iff s c₂ g).mp hm)
        rw [hc] at this
        cases this
      · intro hh
        exact absurd (Option.some.inj hh) (fun hx => hgf hx.symm)
  · rw [insert_reverse_ne s c c₂ f now hne]
    rcases Decidable.eq_or_ne g f with rfl | hgf
    · rw [if_pos rfl, mem_setAdd]
      constructor
      · rintro (hm | rfl)
        · exact (hcons c₂ g).mp ((mem_getConnectionsByForm_iff s c₂ g).mp hm)
        · exact absurd rfl hne
      · intro hcf
        exact Or.inl ((mem_getConnectionsByForm_iff s c₂ g).mpr ((hcons c₂ g).mpr hcf))
    · rw [if_neg hgf, mem_getConnectionsByForm_iff]
      exact hcons c₂ g

theorem insert_noEmpty (s : NotifierState) (c : ConnId) (f : FormId) (now : Nat)
    (hne : NoEmptyWatcherSet s) : NoEmptyWatcherSet (insertRegistration s c f now) := by
  intro g ws hws
  unfold insertRegistration at hws
  dsimp only at hws
  rcases Decidable.eq_or_ne g f with rfl | hgf
  · rw [alookup_mapSet_self] at hws
    obtain rfl := Option.some.inj hws
    exact setAdd_ne_nil _ _
  · rw [alookup_mapSet_ne _ _ _ _ hgf] at hws
    exact hne g ws hws

theorem insert_truthyKeys (s : NotifierState) (c : ConnId) (f : FormId) (now : Nat)
    (hf : f ≠ "") (htr : TruthyFormKeys s) :
    TruthyFormKeys (insertRegistration s c f now) := by
  intro g ws hws
  unfold insertRegistration at hws
  dsimp only at hws
  rcases Decidable.eq_or_ne g f with rfl | hgf
  · exact hf
  · rw [alookup_mapSet_ne _ _ _ _ hgf] at hws
    exact htr g ws hws

theorem insert_wf (s : NotifierState) (c : ConnId) (f : FormId) (now : Nat)
    (hf : f ≠ "") (hwf : NotifierWF s) (hc : alookup s.connectionForms c = none) :
    NotifierWF (insertRegistration s c f now) := by
  obtain ⟨h₁, h₂, hcons, hne, htr⟩ := (notifierWF_iff s).mp hwf
  rw [notifierWF_iff]
  exact ⟨nodup_keys_mapSet _ _ _ h₁, nodup_keys_mapSet _ _ _ h₂,
    insert_consistent s c f now hcons hc, insert_noEmpty s c f now hne,
    insert_truthyKeys s c f now hf htr⟩

theorem register_wf (s : NotifierState) (c : ConnId) (f : FormId) (now : Nat)
    (hf : f ≠ "") (hwf : NotifierWF s) :
    NotifierWF (registerPreviewConnection s c f now) := by
  unfold registerPreviewConnection
  split
  next f₀ hcf =>
      by_cases htr : f₀ ≠ ""
      · rw [if_pos htr]
        by_cases hff : f₀ ≠ f
        · rw [if_pos hff]
          exact insert_wf _ c f now hf (unregister_wf s c hwf)
            (unregister_reverse_self_wf s c hwf)
        · rw [if_neg hff]
          exact hwf
      · exact absurd (reverse_truthy s c f₀ hwf hcf) htr
  next hcf => exact insert_wf s c f now hf hwf hcf

theorem applyNotifierOp_wf (s : NotifierState) (op : NotifierOp)
    (hop : op.formIdTruthy = true) (hwf : NotifierWF s) :
    NotifierWF (applyNotifierOp s op) := by
  cases op with
  | reg c f now =>
      refine register_wf s c f now ?_ hwf
      simpa [NotifierOp.formIdTruthy, bne_iff_ne] using hop
  | unreg c => exact unregister_wf s c hwf

theorem foldl_notifierOps_wf (ops : List NotifierOp) (s : NotifierState)
    (hops : ops.all NotifierOp.formIdTruthy = true) (hwf : NotifierWF s) :
    NotifierWF (ops.foldl applyNotifierOp s) := by
  induction ops generalizing s with
  | nil => exact hwf
  | cons op rest ih =>
      rw [List.all_cons, Bool.and_eq_true] at hops
      exact ih _ hops.2 (applyNotifierOp_wf s op hops.1 hwf)

theorem runNotifierOps_wf (ops : List NotifierOp)
    (hops : ops.all NotifierOp.formIdTruthy = true) :
    NotifierWF (runNotifierOps ops) :=
  foldl_notifierOps_wf ops initNotifier hops (by decide)

/-- C1 (amended): for every sequence of registerPreviewConnection and
unregisterPreviewConnection calls starting from the empty state in which
every register call uses a truthy (nonempty) form id, the indices of the
Form Update Router stay consistent: a connection id appears in the watcher
set of a form exactly when the reverse index maps it to that form id (hence
in exactly one set, the reverse index being a map), the union of all
forward-index watcher sets equals the key set of the reverse index, and no
form is mapped to an empty watcher set.  The restriction to truthy form ids
is forced by the source: the JavaScript truthiness guards skip
unregistration for a connection whose stored form id is the empty string,
breaking the invariant. -/
theorem c1_register_unregister_indices_consistent (ops : List NotifierOp)
    (hops : ops.all NotifierOp.formIdTruthy = true) :
    (∀ c f, (∃ ws, alookup (runNotifierOps ops).formWatchers f = some ws ∧ c ∈ ws) ↔
        alookup (runNotifierOps ops).connectionForms c = some f) ∧
    (∀ c, (∃ e ∈ (runNotifierOps ops).formWatchers, c ∈ e.2) ↔
        c ∈ (runNotifierOps ops).connectionForms.map Prod.fst) ∧
    (∀ e ∈ (runNotifierOps ops).formWatchers, e.2 ≠ []) := by
  have hwf := runNotifierOps_wf ops hops
  obtain ⟨h₁, h₂, hcons, hne, htr⟩ := (notifierWF_iff _).mp hwf
  obtain ⟨-, -, h₃, h₄⟩ := hwf
  refine ⟨hcons, ?_, fun e he => (h₃ e he).2.1⟩
  intro c
  constructor
  · rintro ⟨e, he, hc⟩
    exact mem_keys_of_alookup ((h₃ e he).2.2 c hc)
  · intro hmem
    obtain ⟨f, hf⟩ := Option.isSome_iff_exists.mp
      ((alookup_isSome_iff_mem_keys _ _).mpr hmem)
    obtain ⟨ws, hws, hcw⟩ := (hcons c f).mpr hf
    exact ⟨(f, ws), mem_of_alookup_eq_some hws, hcw⟩

/-- Counterexample to C1 as stated: registering a connection for the falsy
empty-string form id and then for a second form double-registers it.  The
source skips the re-registration branch because the stored form id is
falsy, so the connection stays in the watcher set of the empty form id
while the reverse index maps it to the new form: the forward and reverse
indices disagree at the empty form id. -/
theorem c1_empty_formid_counterexample :
    (∃ ws, alookup (runNotifierOps
        [NotifierOp.reg "c1" "" 0, NotifierOp.reg "c1" "f2" 1]).formWatchers ""
      = some ws ∧ "c1" ∈ ws) ∧
    alookup (runNotifierOps
        [NotifierOp.reg "c1" "" 0, NotifierOp.reg "c1" "f2" 1]).connectionForms "c1"
      ≠ some "" := by
  constructor
  · exact ⟨["c1"], by decide, by decide⟩
  · decide

/-- A short sequence of register and unregister calls with truthy form ids. -/
def c1WitnessOps : List NotifierOp :=
  [NotifierOp.reg "c1" "f1" 0, NotifierOp.reg "c2" "f1" 1, NotifierOp.unreg "c1",
   NotifierOp.reg "c2" "f2" 2]

/-- Witness for the amended C1 at a concrete call sequence. -/
theorem c1_register_unregister_indices_consistent_witness :
    c1WitnessOps.all NotifierOp.formIdTruthy = true ∧
    ((∀ c f, (∃ ws, alookup (runNotifierOps c1WitnessOps).formWatchers f = some ws ∧ c ∈ ws) ↔
        alookup (runNotifierOps c1WitnessOps).connectionForms c = some f) ∧
     (∀ c, (∃ e ∈ (runNotifierOps c1WitnessOps).formWatchers, c ∈ e.2) ↔
        c ∈ (runNotifierOps c1WitnessOps).connectionForms.map Prod.fst) ∧
     (∀ e ∈ (runNotifierOps c1WitnessOps).formWatchers, e.2 ≠ [])) :=
  ⟨by decide, c1_register_unregister_indices_consistent c1WitnessOps (by decide)⟩

theorem register_reverse_self (s : NotifierState) (c : ConnId) (f : FormId) (t : Nat) :
    getFormByConnection (registerPreviewConnection s c f t) c = some f := by
  unfold registerPreviewConnection
  split
  next f₀ hcf =>
      by_cases htr : f₀ ≠ ""
      · rw [if_pos htr]
        by_cases hff : f₀ ≠ f
        · rw [if_pos hff]
          exact insert_reverse_self _ _ _ _
        · rw [if_neg hff]
          push_neg at hff
          subst hff
          exact hcf
      · rw [if_neg htr]
        exact insert_reverse_self _ _ _ _
  next hcf => exact insert_reverse_self _ _ _ _

theorem register_same_branch (s : NotifierState) (c : ConnId) (f : FormId) (t : Nat)
    (h : alookup s.connectionForms c = some f) (hf : f ≠ "") :
    registerPreviewConnection s c f t
      = { s with connectionActivity := mapSet s.connectionActivity c t } := by
  unfold registerPreviewConnection
  rw [h]
  dsimp only
  rw [if_pos hf, if_neg (by simp)]

theorem register_diff_branch (s : NotifierState) (c : ConnId) (f₀ f : FormId) (t : Nat)
    (h : alookup s.connectionForms c = some f₀) (hf₀ : f₀ ≠ "") (hff : f₀ ≠ f) :
    registerPreviewConnection s c f t
      = insertRegistration (unregisterPreviewConnection s c) c f t := by
  unfold registerPreviewConnection
  rw [h]
  dsimp only
  rw [if_pos hf₀, if_pos hff]

theorem register_falsy_branch (s : NotifierState) (c : ConnId) (f : FormId) (t : Nat)
    (h : alookup s.connectionForms c = some "") :
    registerPreviewConnection s c f t = insertRegistration s c f t := by
  unfold registerPreviewConnection
  rw [h]
  dsimp only
  rw [if_neg (by simp)]

theorem register_none_branch (s : NotifierState) (c : ConnId) (f : FormId) (t : Nat)
    (h : alookup s.connectionForms c = none) :
    registerPreviewConnection s c f t = insertRegistration s c f t := by
  unfold registerPreviewConnection
  rw [h]

theorem insert_insert_same (s : NotifierState) (c : ConnId) (f : FormId) (t₁ t₂ : Nat) :
    insertRegistration (insertRegistration s c f t₁) c f t₂
      = insertRegistration s c f t₂ := by
  unfold insertRegistration
  dsimp only
  rw [alookup_mapSet_self, Option.getD_some, setAdd_setAdd, mapSet_mapSet, mapSet_mapSet,
    mapSet_mapSet]

/-- A registration directly followed by a registration of the same
connection for the same form produces the very same state as a single
registration at the later timestamp: only the activity timestamp is
refreshed.  This holds for every starting state, including the falsy
empty-string form id (both calls then take the fall-through insertion and
the second insertion collapses into the first). -/
theorem register_register_same (s : NotifierState) (c : ConnId) (f : FormId) (t₁ t₂ : Nat) :
    registerPreviewConnection (registerPreviewConnection s c f t₁) c f t₂
      = registerPreviewConnection s c f t₂ := by
  have hrev : alookup (registerPreviewConnection s c f t₁).connectionForms c = some f :=
    register_reverse_self s c f t₁
  by_cases hf : f ≠ ""
  · rw [register_same_branch _ c f t₂ hrev hf]
    rcases hcf : alookup s.connectionForms c with - | f₀
    · rw [register_none_branch s c f t₁ hcf, register_none_branch s c f t₂ hcf]
      simp [insertRegistration, mapSet_mapSet]
    · by_cases htr : f₀ ≠ ""
      · by_cases hff : f₀ ≠ f
        · rw [register_diff_branch s c f₀ f t₁ hcf htr hff,
            register_diff_branch s c f₀ f t₂ hcf htr hff]
          simp [insertRegistration, mapSet_mapSet]
        · push_neg at hff
          subst hff
          rw [register_same_branch s c f₀ t₁ hcf htr, register_same_branch s c f₀ t₂ hcf htr]
          dsimp only
          rw [mapSet_mapSet]
      · push_neg at htr
        subst htr
        rw [register_falsy_branch s c f t₁ hcf, register_falsy_branch s c f t₂ hcf]
        simp [insertRegistration, mapSet_mapSet]
  · push_neg at hf
    subst hf
    rw [register_falsy_branch _ c "" t₂ hrev]
    rcases hcf : alookup s.connectionForms c with - | f₀
    · rw [register_none_branch s c "" t₁ hcf, register_none_branch s c "" t₂ hcf]
      exact insert_insert_same s c "" t₁ t₂
    · by_cases htr : f₀ ≠ ""
      · rw [register_diff_branch s c f₀ "" t₁ hcf htr htr,
          register_diff_branch s c f₀ "" t₂ hcf htr htr]
        exact insert_insert_same _ c "" t₁ t₂
      · push_neg at htr
        subst htr
        rw [register_falsy_branch s c "" t₁ hcf, register_falsy_branch s c "" t₂ hcf]
        exact insert_insert_same s c "" t₁ t₂

theorem unregister_not_watching_own (s : NotifierState) (c : ConnId) (f : FormId)
    (h : alookup s.connectionForms c = some f) (hf : f ≠ "") :
    c ∉ getConnectionsByForm (unregisterPreviewConnection s c) f := by
  unfold unregisterPreviewConnection
  rw [h]
  dsimp only
  rw [if_neg hf]
  unfold removeRegistration getConnectionsByForm
  dsimp only
  split
  next hfw =>
      rw [hfw]
      simp
  next ws hfw =>
      split
      next hemp =>
          rw [alookup_mapDelete_self]
          simp
      next hemp =>
          rw [alookup_mapSet_self]
          simp [mem_setDelete]

/-- C6 (amended): registering an already-registered connection for a
different form atomically moves the watch, provided the old form id is
truthy (nonempty): the reverse index then names the new form and the old
form watcher set no longer contains the connection.  Re-registering for the
same form (any form id) leaves the state exactly as a single registration
at the later timestamp.  The truthiness restriction is forced by the
source: an empty-string form id is falsy, the unregistration branch is
skipped, and the connection stays in the old watcher set. -/
theorem c6_reregistration_moves_watch (s : NotifierState) (c : ConnId)
    (f₁ f₂ : FormId) (t₁ t₂ t₃ : Nat) (hf₁ : f₁ ≠ "") (hne : f₁ ≠ f₂) :
    getFormByConnection
        (registerPreviewConnection (registerPreviewConnection s c f₁ t₁) c f₂ t₂) c
      = some f₂ ∧
    c ∉ getConnectionsByForm
        (registerPreviewConnection (registerPreviewConnection s c f₁ t₁) c f₂ t₂) f₁ ∧
    registerPreviewConnection (registerPreviewConnection s c f₁ t₁) c f₁ t₃
      = registerPreviewConnection s c f₁ t₃ := by
  have h1 : alookup (registerPreviewConnection s c f₁ t₁).connectionForms c = some f₁ :=
    register_reverse_self s c f₁ t₁
  refine ⟨register_reverse_self _ c f₂ t₂, ?_, register_register_same s c f₁ t₁ t₃⟩
  rw [register_diff_branch _ c f₁ f₂ t₂ h1 hf₁ hne,
    insert_watchers _ c f₂ f₁ t₂, if_neg hne]
  exact unregister_not_watching_own _ c f₁ h1 hf₁

/-- Counterexample to C6 as stated: with the empty string as the first form
id, the source skips the unregistration when the connection re-registers
for a second form (the stored form id is falsy), so the connection is still
in the watcher set of the first form afterwards. -/
theorem c6_empty_formid_counterexample :
    getFormByConnection
        (registerPreviewConnection
          (registerPreviewConnection initNotifier "c1" "" 0) "c1" "f2" 1) "c1"
      = some "f2" ∧
    "c1" ∈ getConnectionsByForm
        (registerPreviewConnection
          (registerPreviewConnection initNotifier "c1" "" 0) "c1" "f2" 1) "" := by
  decide

/-- Witness for the amended C6 at a concrete input. -/
theorem c6_reregistration_moves_watch_witness :
    (("f1" : FormId) ≠ "" ∧ ("f1" : FormId) ≠ "f2") ∧
    (getFormByConnection
        (registerPreviewConnection
          (registerPreviewConnection initNotifier "c1" "f1" 0) "c1" "f2" 1) "c1"
      = some "f2" ∧
    "c1" ∉ getConnectionsByForm
        (registerPreviewConnection
          (registerPreviewConnection initNotifier "c1" "f1" 0) "c1" "f2" 1) "f1" ∧
    registerPreviewConnection
        (registerPreviewConnection initNotifier "c1" "f1" 0) "c1" "f1" 2
      = registerPreviewConnection initNotifier "c1" "f1" 2) :=
  ⟨⟨by decide, by decide⟩,
   c6_reregistration_moves_watch initNotifier "c1" "f1" "f2" 0 1 2 (by decide) (by decide)⟩

/-! ## Streaming Connection Registry and dispatch (`SSEManager`, `sendNotification`) -/

/-- Behaviour of `conn.res.write` for a connection registered in the SSE
manager: the write either reports success, reports a full buffer (returns
false), or throws.  The notifier senders catch the throw and return false. -/
inductive WriteBehavior where
  | writeOk
  | bufferFull
  | writeThrows
deriving Repr, DecidableEq

/-- The connection map of `SSEManager` (sse-manager.ts line 17), reduced to
the observable behaviour of each registered stream. -/
abbrev SSERegistry := List (ConnId × WriteBehavior)

/-- Embedding of `SSEManager.hasConnection` (sse-manager.ts lines 115 to 117). -/
def hasConnection (sse : SSERegistry) (c : ConnId) : Bool :=
  (alookup sse c).isSome

/-- Combined state of the Streaming Connection Registry and the Form Update
Router, as the notifier holds a reference to the SSE manager. -/
structure SysState where
  sse : SSERegistry
  notifier : NotifierState
deriving Repr, DecidableEq

/-- The change kind carried by a notification. -/
inductive ChangeType where
  | created
  | updated
  | deleted
deriving Repr, DecidableEq

/-- Embedding of `FormUpdateNotifier.sendFormUpdateEvent` and
`sendFormDeletedEvent` (form-preview.ts lines 659 to 704): false when the
connection is missing from the SSE manager, when the write reports a full
buffer, or when the write throws (the exception is caught inside the sender
and false returned); true only on a successful write.  Neither sender
modifies the registry. -/
def sendEventResult (sse : SSERegistry) (c : ConnId) : Bool :=
  match alookup sse c with
  | none => false
  | some .writeOk => true
  | some .bufferFull => false
  | some .writeThrows => false

/-- Embedding of `FormUpdateNotifier.sendNotification` (form-preview.ts lines
513 to 654): resolve the watcher list of the form; when empty, skip.
Otherwise attempt delivery to every watcher in order; a watcher whose send
failed and which is no longer in the SSE manager is queued as dead; after
the loop every dead connection is unregistered.  Returns the new state, the
list of successful deliveries, and the dead list. -/
def sendNotification (st : SysState) (formId : FormId) (_changeType : ChangeType) :
    SysState × List ConnId × List ConnId :=
  let connectionIds := getConnectionsByForm st.notifier formId
  if connectionIds.isEmpty then (st, [], [])
  else
    let successes := connectionIds.filter (fun c => sendEventResult st.sse c)
    let dead := connectionIds.filter
      (fun c => !sendEventResult st.sse c && !hasConnection st.sse c)
    ({ st with notifier := dead.foldl unregisterPreviewConnection st.notifier },
      successes, dead)

/-- Embedding of `FormUpdateNotifier.notifyFormCreated` (lines 385 to 399):
no debouncing, a single synchronous `sendNotification` call.  The returned
list records the dispatches performed by this call. -/
def notifyFormCreated (st : SysState) (formId : FormId) :
    SysState × List (FormId × ChangeType) :=
  ((sendNotification st formId ChangeType.created).1, [(formId, ChangeType.created)])

/-- Tail of `FormUpdateNotifier.notifyFormDeleted` after the dispatch
(form-preview.ts lines 420 to 468): clear the pending debounce timer of the
form, then unregister from the Router every remaining watcher of the form
that is still present in the SSE manager (`getConnectionInfo` check). -/
def deletedCleanup (st₁ : SysState) (formId : FormId) : NotifierState :=
  let n₂ := { st₁.notifier with
    pendingNotifications := mapDelete st₁.notifier.pendingNotifications formId }
  let connectionIds := getConnectionsByForm n₂ formId
  connectionIds.foldl
    (fun n c => if (alookup st₁.sse c).isSome then unregisterPreviewConnection n c else n) n₂

/-- Embedding of `FormUpdateNotifier.notifyFormDeleted` (lines 405 to 469):
a single synchronous `sendNotification` call, then the cleanup tail.  The
registry itself is never touched: the comment in the source says the client
closes the stream after receiving the form-deleted event. -/
def notifyFormDeleted (st : SysState) (formId : FormId) :
    SysState × List (FormId × ChangeType) :=
  let st₁ := (sendNotification st formId ChangeType.deleted).1
  ({ st₁ with notifier := deletedCleanup st₁ formId }, [(formId, ChangeType.deleted)])

theorem foldl_unregister_wf (L : List ConnId) (n : NotifierState) (hwf : NotifierWF n) :
    NotifierWF (L.foldl unregisterPreviewConnection n) := by
  induction L generalizing n with
  | nil => exact hwf
  | cons a L ih => exact ih _ (unregister_wf n a hwf)

theorem foldl_unregister_pending (L : List ConnId) (n : NotifierState) :
    (L.foldl unregisterPreviewConnection n).pendingNotifications
      = n.pendingNotifications := by
  induction L generalizing n with
  | nil => rfl
  | cons a L ih => rw [List.foldl_cons, ih, unregister_pending]

theorem foldl_unregister_reverse_none (L : List ConnId) (n : NotifierState) (c : ConnId)
    (h : getFormByConnection n c = none) :
    getFormByConnection (L.foldl unregisterPreviewConnection n) c = none := by
  induction L generalizing n with
  | nil => exact h
  | cons a L ih => exact ih _ (unregister_reverse_none n a c h)

theorem foldl_unregister_reverse_mem (L : List ConnId) (n : NotifierState) (c : ConnId)
    (hwf : NotifierWF n) (hc : c ∈ L) :
    getFormByConnection (L.foldl unregisterPreviewConnection n) c = none := by
  induction L generalizing n with
  | nil => cases hc
  | cons a L ih =>
      rcases Decidable.eq_or_ne c a with rfl | hca
      · exact foldl_unregister_reverse_none L _ c (unregister_reverse_self_wf n c hwf)
      · exact ih _ (unregister_wf n a hwf) (List.mem_of_ne_of_mem hca hc)

theorem foldl_unregister_reverse_notMem (L : List ConnId) (n : NotifierState) (c : ConnId)
    (hc : c ∉ L) :
    getFormByConnection (L.foldl unregisterPreviewConnection n) c
      = getFormByConnection n c := by
  induction L generalizing n with
  | nil => rfl
  | cons a L ih =>
      have hca : c ≠ a := fun hh => hc (hh ▸ List.mem_cons_self a L)
      rw [List.foldl_cons, ih _ (fun hh => hc (List.mem_cons_of_mem a hh)),
        unregister_reverse_ne n a c hca]

theorem foldl_unregister_mem_watchers (L : List ConnId) (n : NotifierState) (f : FormId)
    (c : ConnId) (hwf : NotifierWF n) :
    c ∈ getConnectionsByForm (L.foldl unregisterPreviewConnection n) f ↔
      c ∈ getConnectionsByForm n f ∧ c ∉ L := by
  induction L generalizing n with
  | nil => simp
  | cons a L ih =>
      rw [List.foldl_cons, ih _ (unregister_wf n a hwf),
        unregister_watchers n a f hwf, mem_setDelete]
      simp only [List.mem_cons, not_or]
      tauto

theorem foldl_cond_unregister_eq (L : List ConnId) (n : NotifierState) (sse : SSERegistry)
    (h : ∀ c ∈ L, (alookup sse c).isSome = true) :
    L.foldl (fun n c => if (alookup sse c).isSome then unregisterPreviewConnection n c else n) n
      = L.foldl unregisterPreviewConnection n := by
  induction L generalizing n with
  | nil => rfl
  | cons a L ih =>
      rw [List.foldl_cons, List.foldl_cons, if_pos (h a (List.mem_cons_self a L))]
      exact ih _ (fun c hc => h c (List.mem_cons_of_mem a hc))

theorem foldl_cond_unregister_pending (L : List ConnId) (n : NotifierState)
    (sse : SSERegistry) :
    (L.foldl (fun n c =>
        if (alookup sse c).isSome then unregisterPreviewConnection n c else n)
      n).pendingNotifications = n.pendingNotifications := by
  induction L generalizing n with
  | nil => rfl
  | cons a L ih =>
      rw [List.foldl_cons, ih]
      by_cases h : (alookup sse a).isSome
      · rw [if_pos h, unregister_pending]
      · rw [if_neg h]

theorem sendNotification_sse (st : SysState) (f : FormId) (ct : ChangeType) :
    (sendNotification st f ct).1.sse = st.sse := by
  unfold sendNotification
  dsimp only
  split
  · rfl
  · rfl

theorem sendNotification_pending (st : SysState) (f : FormId) (ct : ChangeType) :
    (sendNotification st f ct).1.notifier.pendingNotifications
      = st.notifier.pendingNotifications := by
  unfold sendNotification
  dsimp only
  split
  · rfl
  · exact foldl_unregister_pending _ _

theorem foldl_cond_unregister_reverse_none (L : List ConnId) (n : NotifierState)
    (sse : SSERegistry) (c : ConnId) (h : getFormByConnection n c = none) :
    getFormByConnection
      (L.foldl (fun n x =>
        if (alookup sse x).isSome then unregisterPreviewConnection n x else n) n) c
      = none := by
  induction L generalizing n with
  | nil => exact h
  | cons a L ih =>
      rw [List.foldl_cons]
      refine ih _ ?_
      by_cases hp : (alookup sse a).isSome
      · rw [if_pos hp]
        exact unregister_reverse_none n a c h
      · rw [if_neg hp]
        exact h

/-- The dead-connection test in the dispatch loop: a connection is queued as
dead exactly when it is absent from the SSE manager (an absent connection
always fails its send, and a present one is never queued). -/
theorem dead_filter_cond (sse : SSERegistry) (c : ConnId) :
    (!sendEventResult sse c && !hasConnection sse c) = true ↔ alookup sse c = none := by
  rcases h : alookup sse c with - | b
  · simp [sendEventResult, hasConnection, h]
  · cases b <;> simp [sendEventResult, hasConnection, h]

theorem deletedCleanup_watchers (st₁ : SysState) (f : FormId)
    (hwf : NotifierWF st₁.notifier)
    (hall : ∀ c ∈ getConnectionsByForm st₁.notifier f,
      (alookup st₁.sse c).isSome = true) :
    getConnectionsByForm (deletedCleanup st₁ f) f = [] := by
  show getConnectionsByForm
      ((getConnectionsByForm st₁.notifier f).foldl
        (fun n c => if (alookup st₁.sse c).isSome then unregisterPreviewConnection n c else n)
        { st₁.notifier with
          pendingNotifications := mapDelete st₁.notifier.pendingNotifications f }) f = []
  rw [foldl_cond_unregister_eq _ _ _ hall]
  refine List.eq_nil_iff_forall_not_mem.mpr ?_
  intro c hc
  have hmem := foldl_unregister_mem_watchers (getConnectionsByForm st₁.notifier f)
    { st₁.notifier with
      pendingNotifications := mapDelete st₁.notifier.pendingNotifications f } f c hwf
  exact (hmem.mp hc).2 (hmem.mp hc).1

theorem deletedCleanup_reverse (st₁ : SysState) (f : FormId)
    (hwf : NotifierWF st₁.notifier)
    (hall : ∀ c ∈ getConnectionsByForm st₁.notifier f,
      (alookup st₁.sse c).isSome = true) :
    ∀ c ∈ getConnectionsByForm st₁.notifier f,
      getFormByConnection (deletedCleanup st₁ f) c = none := by
  show ∀ c ∈ getConnectionsByForm st₁.notifier f,
    getFormByConnection
      ((getConnectionsByForm st₁.notifier f).foldl
        (fun n c => if (alookup st₁.sse c).isSome then unregisterPreviewConnection n c else n)
        { st₁.notifier with
          pendingNotifications := mapDelete st₁.notifier.pendingNotifications f }) c = none
  rw [foldl_cond_unregister_eq _ _ _ hall]
  intro c hc
  exact foldl_unregister_reverse_mem _ _ _ hwf hc

theorem deletedCleanup_reverse_none (st₁ : SysState) (f : FormId) (c : ConnId)
    (h : getFormByConnection st₁.notifier c = none) :
    getFormByConnection (deletedCleanup st₁ f) c = none := by
  unfold deletedCleanup
  dsimp only
  exact foldl_cond_unregister_reverse_none _ _ _ _ h

theorem sendNotification_wf (st : SysState) (f : FormId) (ct : ChangeType)
    (hwf : NotifierWF st.notifier) :
    NotifierWF (sendNotification st f ct).1.notifier := by
  unfold sendNotification
  dsimp only
  split
  · exact hwf
  · exact foldl_unregister_wf _ _ hwf

theorem sendNotification_survivors_present (st : SysState) (f : FormId) (ct : ChangeType)
    (hwf : NotifierWF st.notifier) :
    ∀ c ∈ getConnectionsByForm (sendNotification st f ct).1.notifier f,
      (alookup st.sse c).isSome = true := by
  unfold sendNotification
  dsimp only
  split
  next hW =>
      intro c hc
      rw [List.isEmpty_iff.mp hW] at hc
      cases hc
  next hW =>
      intro c hc
      rw [foldl_unregister_mem_watchers _ _ _ _ hwf] at hc
      obtain ⟨hcW, hcD⟩ := hc
      rcases hpres : alookup st.sse c with - | b
      · exact absurd (List.mem_filter.mpr ⟨hcW, (dead_filter_cond st.sse c).mpr hpres⟩) hcD
      · simp [hpres]

/-- C3 (amended): after `notifyFormDeleted(f)` the Router no longer has any
watcher for `f` and every connection that was watching `f` before the call
is unregistered from the Router; the Streaming Connection Registry however
is untouched by the call (the source only unregisters from its own
tracking; the stream is expected to be closed later by the client), so
`hasConnection` is unchanged rather than false. -/
theorem c3_deleted_cleanup_amended (st : SysState) (f : FormId)
    (hwf : NotifierWF st.notifier) :
    getConnectionsByForm (notifyFormDeleted st f).1.notifier f = [] ∧
    (∀ c ∈ getConnectionsByForm st.notifier f,
        getFormByConnection (notifyFormDeleted st f).1.notifier c = none) ∧
    (notifyFormDeleted st f).1.sse = st.sse := by
  have hred : (notifyFormDeleted st f).1.notifier
      = deletedCleanup (sendNotification st f ChangeType.deleted).1 f := rfl
  have hsse1 : (sendNotification st f ChangeType.deleted).1.sse = st.sse :=
    sendNotification_sse st f ChangeType.deleted
  have hwf₁ : NotifierWF (sendNotification st f ChangeType.deleted).1.notifier :=
    sendNotification_wf st f ChangeType.deleted hwf
  have hall : ∀ c ∈ getConnectionsByForm (sendNotification st f ChangeType.deleted).1.notifier f,
      (alookup (sendNotification st f ChangeType.deleted).1.sse c).isSome = true := by
    rw [hsse1]
    exact sendNotification_survivors_present st f ChangeType.deleted hwf
  refine ⟨?_, ?_, ?_⟩
  · rw [hred]
    exact deletedCleanup_watchers _ f hwf₁ hall
  · intro c hc
    rw [hred]
    by_cases hc₁ : c ∈ getConnectionsByForm (sendNotification st f ChangeType.deleted).1.notifier f
    · exact deletedCleanup_reverse _ f hwf₁ hall c hc₁
    · refine deletedCleanup_reverse_none _ f c ?_
      revert hc₁
      unfold sendNotification
      dsimp only
      split
      next hW =>
          intro hc₁
          rw [List.isEmpty_iff.mp hW] at hc
          cases hc
      next hW =>
          intro hc₁
          rw [foldl_unregister_mem_watchers _ _ _ _ hwf] at hc₁
          push_neg at hc₁
          exact foldl_unregister_reverse_mem _ _ _ hwf (hc₁ hc)
  · rw [show (notifyFormDeleted st f).1.sse
        = (sendNotification st f ChangeType.deleted).1.sse from rfl, hsse1]

/-- A single live connection watching the form to be deleted. -/
def oneLiveWatcher : SysState :=
  ⟨[("c1", WriteBehavior.writeOk)], ⟨[("f1", ["c1"])], [("c1", "f1")], [("c1", 0)], []⟩⟩

/-- Counterexample to C3 as stated: the connection that was watching the
deleted form is still present in the Streaming Connection Registry after
`notifyFormDeleted` returns (the claim says it must be absent). -/
theorem c3_registry_untouched_counterexample :
    "c1" ∈ getConnectionsByForm oneLiveWatcher.notifier "f1" ∧
    hasConnection (notifyFormDeleted oneLiveWatcher "f1").1.sse "c1" = true := by
  decide

/-- Witness for the amended C3 at a concrete state. -/
theorem c3_deleted_cleanup_amended_witness :
    NotifierWF oneLiveWatcher.notifier ∧
    (getConnectionsByForm (notifyFormDeleted oneLiveWatcher "f1").1.notifier "f1" = [] ∧
     getFormByConnection (notifyFormDeleted oneLiveWatcher "f1").1.notifier "c1" = none ∧
     (notifyFormDeleted oneLiveWatcher "f1").1.sse = oneLiveWatcher.sse) := by
  have h := c3_deleted_cleanup_amended oneLiveWatcher "f1" (by decide)
  exact ⟨by decide, h.1, h.2.1 "c1" (by decide), h.2.2⟩

/-- C4 (amended): during one dispatch over the watchers of a form, a failing
connection is removed from both indices after the loop exactly when it is
absent from the Streaming Connection Registry (a dead connection); a write
failure on a connection that is still registered (full buffer or thrown
write, both reported as a failed send) leaves its watch untouched; and in
all cases every other watcher whose write succeeds is delivered to in the
same call. -/
theorem c4_dispatch_failure_isolation (st : SysState) (f : FormId) (ct : ChangeType)
    (c₁ : ConnId) (hwf : NotifierWF st.notifier)
    (hc : c₁ ∈ getConnectionsByForm st.notifier f) :
    (alookup st.sse c₁ = none →
        getFormByConnection (sendNotification st f ct).1.notifier c₁ = none ∧
        c₁ ∉ getConnectionsByForm (sendNotification st f ct).1.notifier f) ∧
    ((alookup st.sse c₁).isSome = true →
        getFormByConnection (sendNotification st f ct).1.notifier c₁
          = getFormByConnection st.notifier c₁) ∧
    (∀ c₂ ∈ getConnectionsByForm st.notifier f, sendEventResult st.sse c₂ = true →
        c₂ ∈ (sendNotification st f ct).2.1) := by
  have hne : ¬ (getConnectionsByForm st.notifier f).isEmpty = true := by
    intro hW
    rw [List.isEmpty_iff.mp hW] at hc
    cases hc
  unfold sendNotification
  dsimp only
  rw [if_neg hne]
  dsimp only
  refine ⟨?_, ?_, ?_⟩
  · intro habs
    have hdead : c₁ ∈ (getConnectionsByForm st.notifier f).filter
        (fun c => !sendEventResult st.sse c && !hasConnection st.sse c) :=
      List.mem_filter.mpr ⟨hc, (dead_filter_cond st.sse c₁).mpr habs⟩
    refine ⟨foldl_unregister_reverse_mem _ _ _ hwf hdead, ?_⟩
    intro hmem
    rw [foldl_unregister_mem_watchers _ _ _ _ hwf] at hmem
    exact hmem.2 hdead
  · intro hpres
    have hnotdead : c₁ ∉ (getConnectionsByForm st.notifier f).filter
        (fun c => !sendEventResult st.sse c && !hasConnection st.sse c) := by
      intro hd
      have := (dead_filter_cond st.sse c₁).mp (List.mem_filter.mp hd).2
      rw [this] at hpres
      cases hpres
    exact foldl_unregister_reverse_notMem _ _ _ hnotdead
  · intro c₂ hc₂ hok
    exact List.mem_filter.mpr ⟨hc₂, hok⟩

/-- Two watchers of one form: the first has a stream whose write throws but
is still registered in the SSE manager, the second is healthy. -/
def throwingAndHealthy : SysState :=
  ⟨[("c1", WriteBehavior.writeThrows), ("c2", WriteBehavior.writeOk)],
   ⟨[("f1", ["c1", "c2"])], [("c1", "f1"), ("c2", "f1")], [("c1", 0), ("c2", 0)], []⟩⟩

/-- Counterexample to C4 as stated: the write to `c1` fails (the write
throws, the sender catches it and reports failure), yet `c1` stays in both
the forward and the reverse index after the dispatch, because it is still
present in the Streaming Connection Registry; only connections missing from
the Registry are cleaned up. -/
theorem c4_soft_failure_not_removed_counterexample :
    sendEventResult throwingAndHealthy.sse "c1" = false ∧
    "c2" ∈ (sendNotification throwingAndHealthy "f1" ChangeType.updated).2.1 ∧
    getFormByConnection
        (sendNotification throwingAndHealthy "f1" ChangeType.updated).1.notifier "c1"
      = some "f1" ∧
    "c1" ∈ getConnectionsByForm
        (sendNotification throwingAndHealthy "f1" ChangeType.updated).1.notifier "f1" := by
  decide

/-- Two watchers of one form: the first is gone from the SSE manager (a dead
connection), the second is healthy. -/
def deadAndHealthy : SysState :=
  ⟨[("c2", WriteBehavior.writeOk)],
   ⟨[("f1", ["c1", "c2"])], [("c1", "f1"), ("c2", "f1")], [("c1", 0), ("c2", 0)], []⟩⟩

/-- Witness for the amended C4 at a concrete state. -/
theorem c4_dispatch_failure_isolation_witness :
    NotifierWF deadAndHealthy.notifier ∧
    "c1" ∈ getConnectionsByForm deadAndHealthy.notifier "f1" ∧
    getFormByConnection
        (sendNotification deadAndHealthy "f1" ChangeType.updated).1.notifier "c1" = none ∧
    "c2" ∈ (sendNotification deadAndHealthy "f1" ChangeType.updated).2.1 := by
  have h := c4_dispatch_failure_isolation deadAndHealthy "f1" ChangeType.updated "c1"
    (by decide) (by decide)
  exact ⟨by decide, by decide, (h.1 (by decide)).1, h.2.2 "c2" (by decide) (by decide)⟩

/-- C5 (amended): `notifyFormCreated` and `notifyFormDeleted` each dispatch
immediately and exactly once per call, bypassing the debounce machinery
(`sendNotification` is called synchronously, never `debounceNotification`);
`notifyFormDeleted` also cancels the pending debounce timer of the form,
but `notifyFormCreated` does not touch the pending timers at all, so a
pending debounced update for the same form survives a creation event. -/
theorem c5_created_deleted_immediate (st : SysState) (f : FormId) :
    (notifyFormCreated st f).2 = [(f, ChangeType.created)] ∧
    (notifyFormCreated st f).1.notifier.pendingNotifications
      = st.notifier.pendingNotifications ∧
    (notifyFormDeleted st f).2 = [(f, ChangeType.deleted)] ∧
    alookup (notifyFormDeleted st f).1.notifier.pendingNotifications f = none := by
  refine ⟨rfl, sendNotification_pending st f ChangeType.created, rfl, ?_⟩
  show alookup (deletedCleanup (sendNotification st f ChangeType.deleted).1 f).pendingNotifications f = none
  unfold deletedCleanup
  dsimp only
  rw [foldl_cond_unregister_pending]
  exact alookup_mapDelete_self _ _

/-- A state with no watchers but a pending debounced update for form f1. -/
def pendingUpdateOnly : SysState := ⟨[], ⟨[], [], [], [("f1", 7)]⟩⟩

/-- Counterexample to C5 as stated: `notifyFormCreated` does not cancel the
pending debounce timer of the form (the claim says every creation call also
cancels it); the pending entry is still present afterwards. -/
theorem c5_created_keeps_pending_counterexample :
    alookup (notifyFormCreated pendingUpdateOnly "f1").1.notifier.pendingNotifications "f1"
      = some 7 := by
  decide

/-! ## Debounce machinery (`debounceNotification`, form-preview.ts 489 to 507) -/

/-- Timed embedding of the per-form debounce slot.  The input is the list of
`notifyFormUpdated` calls for one form, in time order, each carrying its
arrival time and its payload.  `debounceNotification` cancels the pending
timer of the form (when the timer has not fired yet, that is, when the next
call arrives strictly before the fire time) and schedules a new timer at
call time plus the debounce interval; the timer that is never cancelled
fires and dispatches its captured payload at its scheduled time.  The
result lists the dispatches as pairs of fire time and payload.  The
pending-timer map is keyed by formId and a call for one form never touches
the slot of another, so one slot is modelled. -/
def debounceDispatches (debounceInterval : Nat) : List (Nat × Nat) → List (Nat × Nat)
  | [] => []
  | [(t, p)] => [(t + debounceInterval, p)]
  | (t₁, p₁) :: (t₂, p₂) :: rest =>
      if t₁ + debounceInterval ≤ t₂ then
        (t₁ + debounceInterval, p₁) :: debounceDispatches debounceInterval ((t₂, p₂) :: rest)
      else
        debounceDispatches debounceInterval ((t₂, p₂) :: rest)

/-- C2: for any burst of one or more `notifyFormUpdated` calls for one form
in which each call arrives within less than the debounce interval of the
previous one, exactly one dispatch occurs, at the last call time plus the
debounce interval, and it carries the payload of the last call (every
earlier call had its timer cancelled and replaced by the next call). -/
theorem c2_debounce_coalesces_burst (debounceInterval : Nat) (calls : List (Nat × Nat))
    (hne : calls ≠ [])
    (hburst : List.Chain' (fun a b => a.1 ≤ b.1 ∧ b.1 < a.1 + debounceInterval) calls) :
    debounceDispatches debounceInterval calls
      = [((calls.getLast hne).1 + debounceInterval, (calls.getLast hne).2)] := by
  induction calls with
  | nil => cases hne rfl
  | cons hd tl ih =>
      obtain ⟨t₁, p₁⟩ := hd
      cases tl with
      | nil => rfl
      | cons hd₂ tl₂ =>
          obtain ⟨t₂, p₂⟩ := hd₂
          have hstep := (List.chain'_cons.mp hburst).1
          have htl := (List.chain'_cons.mp hburst).2
          have hlt : ¬ (t₁ + debounceInterval ≤ t₂) := by
            exact fun hle => absurd hstep.2 (Nat.not_lt.mpr hle)
          rw [show debounceDispatches debounceInterval ((t₁, p₁) :: (t₂, p₂) :: tl₂)
              = debounceDispatches debounceInterval ((t₂, p₂) :: tl₂) from by
            simp only [debounceDispatches, if_neg hlt]]
          rw [ih (by simp) htl]
          rfl

/-- Witness for C2: three calls 100 time units apart with the default
debounce interval of 500 collapse to one dispatch at 700 carrying the last
payload. -/
theorem c2_debounce_coalesces_burst_witness :
    ([((0 : Nat), (1 : Nat)), (100, 2), (200, 3)] ≠ ([] : List (Nat × Nat))) ∧
    debounceDispatches 500 [(0, 1), (100, 2), (200, 3)] = [(700, 3)] :=
  ⟨by decide,
   by
    have h := c2_debounce_coalesces_burst 500 [(0, 1), (100, 2), (200, 3)]
      (by decide) (by norm_num [List.chain'_cons])
    simpa using h⟩

/-! ## RPC Dispatch Bridge (`HttpTransport.handleRequestSync`) -/

/-- A JSON-RPC message id as JavaScript sees it: a number, a string, or
null (an absent id is `Option.none` at the message level). -/
inductive JsonId where
  | num (n : Int)
  | str (s : String)
  | jnull
deriving Repr, DecidableEq

/-- JavaScript truthiness of an id value: 0, the empty string and null are
falsy, everything else is truthy. -/
def JsonId.truthy : JsonId → Bool
  | .num n => n != 0
  | .str s => s != ""
  | .jnull => false

/-- The id computation of the catch branch of `handleRequestSync`
(http-transport.ts line 76): `(message as any).id || null` is the message
id when that id is truthy, and null otherwise (also when absent). -/
def jsIdOrNull (msgId : Option JsonId) : JsonId :=
  match msgId with
  | some v => if v.truthy then v else JsonId.jnull
  | none => JsonId.jnull

/-- A JSON-RPC message as far as `handleRequestSync` inspects it: an
optional id and an optional method name (params go to the handler with the
whole message). -/
structure RpcMessage where
  id : Option JsonId
  method : Option String
deriving Repr, DecidableEq

/-- A JSON-RPC error object. -/
structure RpcError where
  code : Int
  message : String
deriving Repr, DecidableEq

/-- A JSON-RPC response: id (absent when the source leaves it undefined),
and either a result or an error. -/
structure RpcResponse where
  id : Option JsonId
  result : Option String
  error : Option RpcError
deriving Repr, DecidableEq

/-- A registered method handler: awaiting it either resolves to a response
or throws (rejects) with an error message. -/
abbrev RpcHandler := RpcMessage → Except String RpcResponse

/-- Embedding of `HttpTransport.handleRequestSync` (http-transport.ts lines
37 to 83).  A message without a method field makes the validation throw,
which the surrounding try/catch converts into a -32603 response; an unknown
method returns a -32601 response carrying the request id verbatim; a
handler that throws is caught and converted into a -32603 response carrying
the thrown message; otherwise the handler response is returned unchanged.
The function is total: every input produces a response. -/
def handleRequestSync (handlers : List (String × RpcHandler)) (message : RpcMessage) :
    RpcResponse :=
  match message.method with
  | none =>
      { id := some (jsIdOrNull message.id), result := none,
        error := some ⟨-32603, "Invalid JSON-RPC message: missing method"⟩ }
  | some m =>
      match alookup handlers m with
      | none =>
          { id := message.id, result := none,
            error := some ⟨-32601, "Method not found: " ++ m⟩ }
      | some handler =>
          match handler message with
          | Except.ok response => response
          | Except.error e =>
              { id := some (jsIdOrNull message.id), result := none,
                error := some ⟨-32603, e⟩ }

/-- C7: `handleRequestSync` always returns a response (it is a total
function of the model): for an unregistered method it returns a -32601
error response carrying the request id; when the looked-up handler throws
it returns a -32603 error response carrying the thrown message; otherwise
it returns the handler result unchanged. -/
theorem c7_handleRequestSync_cases (handlers : List (String × RpcHandler))
    (msg : RpcMessage) (m : String) (hm : msg.method = some m) :
    (alookup handlers m = none →
        handleRequestSync handlers msg
          = ⟨msg.id, none, some ⟨-32601, "Method not found: " ++ m⟩⟩) ∧
    (∀ hdl e, alookup handlers m = some hdl → hdl msg = Except.error e →
        handleRequestSync handlers msg
          = ⟨some (jsIdOrNull msg.id), none, some ⟨-32603, e⟩⟩) ∧
    (∀ hdl r, alookup handlers m = some hdl → hdl msg = Except.ok r →
        handleRequestSync handlers msg = r) := by
  refine ⟨?_, ?_, ?_⟩
  · intro hl
    simp only [handleRequestSync, hm, hl]
  · intro hdl e hl he
    simp only [handleRequestSync, hm, hl, he]
  · intro hdl r hl hr
    simp only [handleRequestSync, hm, hl, hr]

/-- A method table with a single handler that always throws. -/
def throwingHandlers : List (String × RpcHandler) :=
  [("boom", fun _ => Except.error "kaboom")]

/-- Witness for C7: an unknown method yields the -32601 response with the
request id. -/
theorem c7_handleRequestSync_cases_witness :
    (RpcMessage.mk (some (JsonId.num 1)) (some "unknown_method")).method
        = some "unknown_method" ∧
    handleRequestSync throwingHandlers ⟨some (JsonId.num 1), some "unknown_method"⟩
      = ⟨some (JsonId.num 1), none, some ⟨-32601, "Method not found: unknown_method"⟩⟩ :=
  ⟨rfl,
   (c7_handleRequestSync_cases throwingHandlers
      ⟨some (JsonId.num 1), some "unknown_method"⟩ "unknown_method" rfl).1 rfl⟩

/-- C10: on both error paths of `handleRequestSync` that go through the
catch branch (missing method field, or a handler that throws), the response
id is the message id when that id is truthy and null otherwise; in
particular a request with id 0 that errors gets id null back, not 0. -/
theorem c10_error_path_id_truthiness (handlers : List (String × RpcHandler))
    (msg : RpcMessage) :
    (msg.method = none →
        (handleRequestSync handlers msg).id = some (jsIdOrNull msg.id)) ∧
    (∀ m hdl e, msg.method = some m → alookup handlers m = some hdl →
        hdl msg = Except.error e →
        (handleRequestSync handlers msg).id = some (jsIdOrNull msg.id)) ∧
    (∀ i, msg.id = some i →
        jsIdOrNull msg.id = if i.truthy then i else JsonId.jnull) ∧
    (msg.id = none → jsIdOrNull msg.id = JsonId.jnull) := by
  refine ⟨?_, ?_, ?_, ?_⟩
  · intro hm
    simp only [handleRequestSync, hm]
  · intro m hdl e hm hl he
    simp only [handleRequestSync, hm, hl, he]
  · intro i hi
    simp only [jsIdOrNull, hi]
  · intro hi
    simp only [jsIdOrNull, hi]

/-- Witness for C10: a request with id 0 whose handler throws receives the
error response with id null rather than 0. -/
theorem c10_error_path_id_truthiness_witness :
    (RpcMessage.mk (some (JsonId.num 0)) (some "boom")).method = some "boom" ∧
    (handleRequestSync throwingHandlers ⟨some (JsonId.num 0), some "boom"⟩).id
      = some JsonId.jnull := by
  have h := c10_error_path_id_truthiness throwingHandlers
    ⟨some (JsonId.num 0), some "boom"⟩
  refine ⟨rfl, ?_⟩
  rw [h.2.1 "boom" (fun _ => Except.error "kaboom") "kaboom" rfl rfl rfl]
  rfl

/-! ## Tool handlers (`tool-handlers.ts`: ownership gate and create_form) -/

/-- The reserved path marker MCP_PATH_PREFIX of tool-handlers.ts line 95. -/
def mcpPathTag : String := "mcp-"

/-- The reserved title marker MCP_TITLE_PREFIX of tool-handlers.ts line 96. -/
def mcpTitleTag : String := "[MCP] "

/-- JavaScript `String.prototype.startsWith`: the second string is a prefix
of the first. -/
def jsStartsWith (s tag : String) : Bool :=
  tag.data.isPrefixOf s.data

/-- Optional chaining `field?.startsWith(tag)`: undefined (falsy) when the
field is absent. -/
def optStartsWith (s : Option String) (tag : String) : Bool :=
  match s with
  | some v => jsStartsWith v tag
  | none => false

/-- The fields of a Form.io form document the ownership gate inspects
(title and path are optional in the FormioForm type). -/
structure FormRec where
  title : Option String
  path : Option String
deriving Repr, DecidableEq

/-- Embedding of `isMCPForm` (tool-handlers.ts lines 99 to 101):
`form.path?.startsWith(MCP_PATH_PREFIX) || form.title?.startsWith(MCP_TITLE_PREFIX)`. -/
def isMCPForm (form : FormRec) : Bool :=
  optStartsWith form.path mcpPathTag || optStartsWith form.title mcpTitleTag

/-- Embedding of `validateMCPOwnership` (tool-handlers.ts lines 103 to 110):
throws when the form is not MCP-owned, otherwise returns. -/
def validateMCPOwnership (form : FormRec) (operation : String) : Except String Unit :=
  if !isMCPForm form then
    Except.error ("Cannot " ++ operation ++ " form: this form was not created by MCP")
  else
    Except.ok ()

/-- The calls the tool branches make against the external forms API. -/
inductive ApiCall where
  | getForm
  | createForm
  | updateForm
  | deleteForm
deriving Repr, DecidableEq

/-- Embedding of the update_form branch of `executeToolCall`
(tool-handlers.ts lines 210 to 227): the form is fetched first (its value
is the `fetched` argument), then ownership is validated (a throw aborts the
branch before any mutation), and only then is the update API call made. -/
def executeUpdateFormTool (fetched : FormRec) : Except String Unit × List ApiCall :=
  match validateMCPOwnership fetched "update" with
  | Except.error e => (Except.error e, [ApiCall.getForm])
  | Except.ok _ => (Except.ok (), [ApiCall.getForm, ApiCall.updateForm])

/-- Embedding of the delete_form branch of `executeToolCall`
(tool-handlers.ts lines 229 to 243), in the same shape. -/
def executeDeleteFormTool (fetched : FormRec) : Except String Unit × List ApiCall :=
  match validateMCPOwnership fetched "delete" with
  | Except.error e => (Except.error e, [ApiCall.getForm])
  | Except.ok _ => (Except.ok (), [ApiCall.getForm, ApiCall.deleteForm])

/-- C8: update_form and delete_form succeed exactly when the fetched form
is MCP-owned, the mutation API call is made exactly in that case, and
ownership means the path carries the reserved path marker or the title
carries the reserved title marker. -/
theorem c8_mutation_ownership_gate (fetched : FormRec) :
    ((executeUpdateFormTool fetched).1 = Except.ok () ↔ isMCPForm fetched = true) ∧
    (ApiCall.updateForm ∈ (executeUpdateFormTool fetched).2 ↔ isMCPForm fetched = true) ∧
    ((executeDeleteFormTool fetched).1 = Except.ok () ↔ isMCPForm fetched = true) ∧
    (ApiCall.deleteForm ∈ (executeDeleteFormTool fetched).2 ↔ isMCPForm fetched = true) ∧
    isMCPForm fetched
      = (optStartsWith fetched.path "mcp-" || optStartsWith fetched.title "[MCP] ") := by
  refine ⟨?_, ?_, ?_, ?_, rfl⟩ <;>
  · by_cases h : isMCPForm fetched
    · simp [executeUpdateFormTool, executeDeleteFormTool, validateMCPOwnership, h]
    · rw [Bool.not_eq_true] at h
      simp [executeUpdateFormTool, executeDeleteFormTool, validateMCPOwnership, h]

/-- A character the path normalization of create_form keeps: the regex
class a-z, 0-9, hyphen, slash (tool-handlers.ts line 168). -/
def isPathChar (ch : Char) : Bool :=
  (decide ('a' ≤ ch) && decide (ch ≤ 'z')) || (decide ('0' ≤ ch) && decide (ch ≤ '9'))
    || (ch == '-') || (ch == '/')

/-- A character trimmed from the ends of the normalized path: hyphen or
slash (tool-handlers.ts line 169). -/
def isPathEdge (ch : Char) : Bool :=
  (ch == '-') || (ch == '/')

/-- ASCII lowercasing of one character, the behaviour of the JavaScript
`toLowerCase` on ASCII input (non-ASCII letters are dropped by the filter
that follows, so only ASCII behaviour is observable here). -/
def jsToLowerChar (ch : Char) : Char :=
  if 'A' ≤ ch ∧ ch ≤ 'Z' then Char.ofNat (ch.toNat + 32) else ch

/-- Embedding of the path normalization of the create_form branch
(tool-handlers.ts lines 166 to 169): lowercase, drop every character other
than a-z, 0-9, hyphen and slash, and trim leading and trailing runs of
hyphen and slash. -/
def normalizePath (path : String) : String :=
  String.mk
    (((((path.data.map jsToLowerChar).filter isPathChar).dropWhile isPathEdge).reverse.dropWhile
      isPathEdge).reverse)

/-- The shape of the components argument of create_form (tool-handlers.ts
lines 176 to 183): a plain array, an object wrapping an array under a
components field, or anything else (rejected).  The payload is the number
of components, which is all the ownership argument needs. -/
inductive ComponentsArg where
  | arr (count : Nat)
  | wrapped (count : Nat)
  | malformed
deriving Repr, DecidableEq

/-- The components shape-sniffing of create_form. -/
def extractComponents : ComponentsArg → Except String Nat
  | .arr n => Except.ok n
  | .wrapped n => Except.ok n
  | .malformed =>
      Except.error "Invalid components parameter: must be an array of component objects"

/-- The form data create_form sends to the forms API. -/
structure CreateFormData where
  title : String
  name : String
  path : String
  componentCount : Nat
deriving Repr, DecidableEq

/-- Embedding of the create_form branch of `executeToolCall`
(tool-handlers.ts lines 161 to 208): normalize the path and reject an empty
result, extract the components, and send form data whose title and path are
the originals with the reserved markers prepended when not already
present. -/
def createFormTool (title path nameArg : String) (components : ComponentsArg) :
    Except String CreateFormData :=
  let normalized := normalizePath path
  if normalized = "" then
    Except.error
      "Invalid path: after normalization, path is empty. Path must contain letters or numbers."
  else
    match extractComponents components with
    | Except.error e => Except.error e
    | Except.ok n =>
        let mcpTitle := if jsStartsWith title mcpTitleTag then title
          else mcpTitleTag ++ title
        let mcpPath := if jsStartsWith normalized mcpPathTag then normalized
          else mcpPathTag ++ normalized
        Except.ok ⟨mcpTitle, nameArg, mcpPath, n⟩

theorem isPrefixOf_append_self {α : Type} [BEq α] [LawfulBEq α] (l t : List α) :
    l.isPrefixOf (l ++ t) = true := by
  induction l with
  | nil => simp [List.isPrefixOf]
  | cons a l ih => simp [List.isPrefixOf, ih]

theorem jsStartsWith_append_self (tag s : String) :
    jsStartsWith (tag ++ s) tag = true := by
  unfold jsStartsWith
  rw [show (tag ++ s).data = tag.data ++ s.data from rfl]
  exact isPrefixOf_append_self _ _

/-- C9: every input create_form accepts produces form data whose title
carries the reserved title marker and whose path carries the reserved path
marker, so the created form satisfies the ownership predicate and can later
be updated and deleted through MCP. -/
theorem c9_created_forms_owned (title path nameArg : String)
    (components : ComponentsArg) (fd : CreateFormData)
    (hok : createFormTool title path nameArg components = Except.ok fd) :
    jsStartsWith fd.title mcpTitleTag = true ∧
    jsStartsWith fd.path mcpPathTag = true ∧
    isMCPForm ⟨some fd.title, some fd.path⟩ = true ∧
    (executeUpdateFormTool ⟨some fd.title, some fd.path⟩).1 = Except.ok () ∧
    (executeDeleteFormTool ⟨some fd.title, some fd.path⟩).1 = Except.ok () := by
  unfold createFormTool at hok
  dsimp only at hok
  split at hok
  · cases hok
  · rcases hcomp : extractComponents components with e | n
    · rw [hcomp] at hok
      cases hok
    · rw [hcomp] at hok
      dsimp only at hok
      obtain rfl := (Except.ok.injEq _ _).mp hok.symm
      have htitle : jsStartsWith
          (if jsStartsWith title mcpTitleTag then title else mcpTitleTag ++ title)
          mcpTitleTag = true := by
        by_cases ht : jsStartsWith title mcpTitleTag
        · rw [if_pos ht]
          exact ht
        · rw [if_neg ht]
          exact jsStartsWith_append_self _ _
      have hpath : jsStartsWith
          (if jsStartsWith (normalizePath path) mcpPathTag then normalizePath path
            else mcpPathTag ++ normalizePath path)
          mcpPathTag = true := by
        by_cases hp : jsStartsWith (normalizePath path) mcpPathTag
        · rw [if_pos hp]
          exact hp
        · rw [if_neg hp]
          exact jsStartsWith_append_self _ _
      have hmcp : isMCPForm
          ⟨some (if jsStartsWith title mcpTitleTag then title else mcpTitleTag ++ title),
           some (if jsStartsWith (normalizePath path) mcpPathTag then normalizePath path
              else mcpPathTag ++ normalizePath path)⟩ = true := by
        unfold isMCPForm optStartsWith
        dsimp only
        rw [hpath]
        rfl
      refine ⟨htitle, hpath, hmcp, ?_, ?_⟩
      · simp [executeUpdateFormTool, validateMCPOwnership, hmcp]
      · simp [executeDeleteFormTool, validateMCPOwnership, hmcp]

/-- Witness for C9 at a concrete accepted input. -/
theorem c9_created_forms_owned_witness :
    (createFormTool "My Form" "My Path!" "myForm" (ComponentsArg.arr 2)
        = Except.ok ⟨"[MCP] My Form", "myForm", "mcp-mypath", 2⟩) ∧
    jsStartsWith ("[MCP] My Form" : String) mcpTitleTag = true ∧
    jsStartsWith ("mcp-mypath" : String) mcpPathTag = true :=
  ⟨rfl,
   (c9_created_forms_owned "My Form" "My Path!" "myForm" (ComponentsArg.arr 2)
      ⟨"[MCP] My Form", "myForm", "mcp-mypath", 2⟩ rfl).1,
   (c9_created_forms_owned "My Form" "My Path!" "myForm" (ComponentsArg.arr 2)
      ⟨"[MCP] My Form", "myForm", "mcp-mypath", 2⟩ rfl).2.1⟩
